import Mathlib

/-!
Verification of the real-time notification subsystem of the househunt
repository (server/notificationService.ts, server/storage.ts, server/routes.ts)
against its natural-language specification.

The TypeScript source is shallowly embedded: the process-wide
`userConnections` map (a JS `Map<string, Set<WebSocket>>`) is modelled as an
insertion-ordered association list with insertion-ordered channel lists
(JS `Map`/`Set` iterate in insertion order and deduplicate), WebSocket handles
are natural numbers, and the `ws.on('close', ...)` callbacks installed by
`addUserConnection` are recorded explicitly so that a transport close event
replays exactly the cleanup callbacks the source installed.
-/

namespace HouseHunt

/-- A WebSocket channel handle. -/
abbrev Chan := Nat

/-- Insertion-ordered association list modelling the JS
`Map<string, Set<WebSocket>>` called `userConnections`. -/
abbrev ConnMap := List (String × List Chan)

/-- `Map.get`: the list of channels of a user, `none` when the user has no
entry. Matches the first entry with the given key, as a JS `Map` does. -/
def lookupConns (u : String) : ConnMap → Option (List Chan)
  | [] => none
  | (v, l) :: rest => if v = u then some l else lookupConns u rest

/-- The channels registered for `u` (empty when `u` has no entry). -/
def chansOf (u : String) (m : ConnMap) : List Chan :=
  (lookupConns u m).getD []

/-- Body of `addUserConnection` on the map: `if (!has(u)) set(u, new Set());
get(u).add(ws)`.  A new key is appended at the end (JS `Map` insertion order);
`Set.add` appends the channel if it is not already present. -/
def addConn (u : String) (c : Chan) : ConnMap → ConnMap
  | [] => [(u, [c])]
  | (v, l) :: rest =>
    if v = u then (v, if c ∈ l then l else l ++ [c]) :: rest
    else (v, l) :: addConn u c rest

/-- Body of `removeUserConnection` (also the body of the close callback
installed by `addUserConnection`): delete `c` from `u`'s set if the entry
exists, and delete the entry entirely when the set becomes empty. -/
def removeConn (u : String) (c : Chan) : ConnMap → ConnMap
  | [] => []
  | (v, l) :: rest =>
    if v = u then
      let l' := l.erase c
      if l' = [] then rest else (v, l') :: rest
    else (v, l) :: removeConn u c rest

/-- The Connection Registry state: the `userConnections` map together with the
list of `(userId, ws)` close callbacks installed so far by
`addUserConnection` (in installation order). -/
structure RegState where
  conns : ConnMap
  handlers : List (String × Chan)
deriving Repr, DecidableEq

/-- The initial state: empty map, no callbacks installed. -/
def emptyReg : RegState := ⟨[], []⟩

/-- `addUserConnection(userId, ws)` from notificationService.ts: adds the
channel to the user's set (creating the entry if absent) and installs a close
callback that will run `removeConn userId ws`. -/
def addUserConnection (u : String) (c : Chan) (s : RegState) : RegState :=
  { conns := addConn u c s.conns, handlers := s.handlers ++ [(u, c)] }

/-- `removeUserConnection(userId, ws)` from notificationService.ts. -/
def removeUserConnection (u : String) (c : Chan) (s : RegState) : RegState :=
  { s with conns := removeConn u c s.conns }

/-- The transport close event for channel `c`: every close callback installed
for `c` fires, in installation order; each one performs the removal of `c`
from the set of the user it was installed for. Installed callbacks remain
(closing does not uninstall them). -/
def closeChannel (c : Chan) (s : RegState) : RegState :=
  { s with
    conns := s.handlers.foldl
      (fun acc h => if h.2 = c then removeConn h.1 c acc else acc) s.conns }

/-- Registry operations observable at the WebSocket endpoint: a successful
`{type: "authenticate", userId}` message (which calls `addUserConnection`),
and a transport close. -/
inductive RegOp where
  | register (u : String) (c : Chan)
  | close (c : Chan)
deriving Repr, DecidableEq

/-- One step of the registry. -/
def applyOp (s : RegState) : RegOp → RegState
  | .register u c => addUserConnection u c s
  | .close c => closeChannel c s

/-- Run a sequence of operations from a given state. -/
def applyOps (ops : List RegOp) (s : RegState) : RegState :=
  ops.foldl applyOp s

/-- States reachable from the empty registry. -/
def Reachable (s : RegState) : Prop :=
  ∃ ops : List RegOp, applyOps ops emptyReg = s

/-- The effect of `Set.add` on the channel list a lookup returns. -/
def addChan (c : Chan) : Option (List Chan) → List Chan
  | none => [c]
  | some l => if c ∈ l then l else l ++ [c]

/-- Structural invariant of the `userConnections` map contents: keys are
unique (it is a JS `Map`), no user maps to an empty set (the code deletes
the entry when the set empties), and each channel list is duplicate-free
(it is a JS `Set`). -/
def ConnsInv (m : ConnMap) : Prop :=
  (m.map Prod.fst).Nodup ∧
  (∀ u, lookupConns u m ≠ some []) ∧
  (∀ u, (chansOf u m).Nodup)

/-- Full registry invariant: the map is well-formed and every channel present
in some user's set has a close callback installed for exactly that
`(user, channel)` pair. -/
def RegInv (s : RegState) : Prop :=
  ConnsInv s.conns ∧ ∀ u c, c ∈ chansOf u s.conns → (u, c) ∈ s.handlers

/-! ## Realtime Dispatcher and Notification Orchestrator

`sendNotificationToUser` and `createAndBroadcastNotification` from
server/notificationService.ts.  The WebSocket `readyState === OPEN` test is a
parameter `wsOpen`; per-recipient persistence outcomes of
`storage.createNotification` are a parameter `fails` (a recipient whose
`createNotification` rejects contributes no record and no dispatch, and the
rejection is absorbed by the orchestrator's catch — all other recipients'
already-started promises run to completion, which the sequential fold
models). -/

/-- The `data` part of the `{type: 'notification', data: ...}` wire message. -/
structure WirePayload where
  id : Nat
  type : String
  title : String
  message : String
  apartmentId : String
deriving Repr, DecidableEq

/-- A row of the notifications table (§3 of the schema; the
`created_at` column is not modelled, no claim mentions it). -/
structure Notification where
  id : Nat
  userId : String
  actorId : String
  apartmentId : String
  type : String
  title : String
  message : String
  isRead : Bool
deriving Repr, DecidableEq

/-- Modelled from the spec: `storage.createNotification` is not present in
the provided storage.ts; §4.3 says it persists one record and returns it
including its generated unique id.  The store is the list of rows and the
generated id is the row count. -/
def createNotification (store : List Notification)
    (userId actorId apartmentId type title message : String) :
    List Notification × Notification :=
  let n : Notification :=
    ⟨store.length, userId, actorId, apartmentId, type, title, message, false⟩
  (store ++ [n], n)

/-- `sendNotificationToUser(userId, notification)`: returns without touching
the registry when the user has no entry or an empty set; otherwise writes the
wire message to every channel whose `readyState` is OPEN.  The returned pair
is (registry after the call, messages written). -/
def sendNotificationToUser (wsOpen : Chan → Bool) (reg : RegState)
    (userId : String) (data : WirePayload) :
    RegState × List (Chan × WirePayload) :=
  match lookupConns userId reg.conns with
  | none => (reg, [])
  | some conns =>
    if conns.length = 0 then (reg, [])
    else (reg, (conns.filter wsOpen).map (fun ws => (ws, data)))

/-- Accumulated effects of one `createAndBroadcastNotification` call. -/
structure FanoutResult where
  store : List Notification
  created : List Notification
  sent : List (Chan × WirePayload)
deriving Repr, DecidableEq

/-- The body of the per-recipient async closure in
`createAndBroadcastNotification`: create the row, then dispatch the wire
message.  A recipient whose `createNotification` rejects contributes
nothing (the rejection is caught by the orchestrator). -/
def processRecipient (wsOpen : Chan → Bool) (reg : RegState)
    (actorId apartmentId type title message : String) (fails : String → Bool)
    (acc : FanoutResult) (userId : String) : FanoutResult :=
  if fails userId then acc
  else
    let p := createNotification acc.store userId actorId apartmentId type title message
    let n := p.2
    let sends := (sendNotificationToUser wsOpen reg userId
      ⟨n.id, n.type, n.title, n.message, n.apartmentId⟩).2
    ⟨p.1, acc.created ++ [n], acc.sent ++ sends⟩

/-- `createAndBroadcastNotification(type, actorId, apartmentId, title,
message, excludeActorFromNotification)` — the notification orchestrator.
In the source `excludeActorFromNotification` defaults to `true`. -/
def createAndBroadcastNotification (wsOpen : Chan → Bool)
    (fails : String → Bool) (reg : RegState) (store : List Notification)
    (type actorId apartmentId title message : String)
    (excludeActorFromNotification : Bool) : FanoutResult :=
  let targetUsers := (reg.conns.map Prod.fst).filter
    (fun userId => if excludeActorFromNotification then userId != actorId else true)
  if targetUsers = [] then ⟨store, [], []⟩
  else targetUsers.foldl
    (processRecipient wsOpen reg actorId apartmentId type title message fails)
    ⟨store, [], []⟩

/-! ## Push Delivery Side-Channel

`sendPushNotification` / `sendPushToUser` from the push half of
server/notificationService.ts.  The web-push provider's per-endpoint
behaviour is a parameter; `Except` models a JS rejection: a function whose
result is always `Except.ok` is one that never throws to its caller. -/

/-- Provider response for a delivery attempt to one endpoint. -/
inductive PushOutcome where
  | success
  | transientError
  | goneError
deriving Repr, DecidableEq

/-- A row of the push_subscriptions table (endpoint unique per schema). -/
structure PushSub where
  userId : String
  endpoint : String
  p256dh : String
  auth : String
deriving Repr, DecidableEq

/-- The payload fields of a push send relevant to the claims. -/
structure PushPayload where
  title : String
  message : String
deriving Repr, DecidableEq

/-- Modelled from the spec: `storage.getUserPushSubscriptions` is not present
in the provided storage.ts; §4.5 says it loads all push subscriptions of the
user from the push-subscription table. -/
def getUserPushSubscriptions (store : List PushSub) (userId : String) :
    List PushSub :=
  store.filter (fun s => s.userId == userId)

/-- Modelled from the spec: `storage.removePushSubscription(endpoint)` is not
present in the provided storage.ts; §3/§6 say it deletes the subscription row
with the given (globally unique) endpoint. -/
def removePushSubscription (store : List PushSub) (endpoint : String) :
    List PushSub :=
  store.filter (fun s => !(s.endpoint == endpoint))

/-- `sendPushNotification(subscription, payload)`: its entire body is wrapped
in try/catch — a provider error is logged and converted into a normal
`false` return, so the function never rethrows (never returns
`Except.error`). -/
def sendPushNotification (provider : String → PushOutcome) (sub : PushSub)
    (payload : PushPayload) : Except String Bool :=
  Except.ok (match provider sub.endpoint with
    | PushOutcome.success => true
    | _ => false)

/-- `sendPushToUser(userId, payload)`: loads the user's subscriptions and
iterates; a thrown (rejected) `sendPushNotification` would trigger
`removePushSubscription`, an `ok` result only updates the success count.
Returns (subscription store after the call, success count). -/
def sendPushToUser (provider : String → PushOutcome) (store : List PushSub)
    (userId : String) (payload : PushPayload) : List PushSub × Nat :=
  let subscriptions := getUserPushSubscriptions store userId
  subscriptions.foldl (fun acc sub =>
    match sendPushNotification provider sub payload with
    | Except.ok success => (acc.1, if success then acc.2 + 1 else acc.2)
    | Except.error _ => (removePushSubscription acc.1 sub.endpoint, acc.2))
    (store, 0)

/-! ## Storage: favorites -/

/-- `storage.toggleFavorite(favorite)` from server/storage.ts: select rows
matching (apartmentId, userId); if any exist, delete them all and return
`false`; otherwise insert the row and return `true`.  The favorites table is
the list of (apartmentId, userId) rows. -/
def toggleFavorite (favs : List (String × String))
    (apartmentId userId : String) : List (String × String) × Bool :=
  let existing := favs.filter (fun f => f.1 == apartmentId && f.2 == userId)
  if existing.length > 0 then
    (favs.filter (fun f => !(f.1 == apartmentId && f.2 == userId)), false)
  else
    (favs ++ [(apartmentId, userId)], true)

/-! ## Route handlers (server/routes.ts)

The comment and favorite POST handlers, after authentication and schema
validation succeeded (their error paths return a 4xx/5xx response without
touching the notification subsystem and are not modelled). -/

/-- A row of the users table, as read by `getUserDisplayName` (a nullable
column is an `Option`). -/
structure UserRec where
  id : String
  firstName : Option String
  lastName : Option String
  email : Option String
deriving Repr, DecidableEq

/-- JS truthiness of a nullable string: `null`, `undefined` and `""` are
falsy. -/
def strTruthy : Option String → Bool
  | none => false
  | some s => !(s == "")

/-- `getUserDisplayName(user)` from server/notificationService.ts. -/
def getUserDisplayName (firstName lastName email : Option String) : String :=
  if strTruthy firstName && strTruthy lastName then
    firstName.getD "" ++ " " ++ lastName.getD ""
  else if strTruthy firstName then firstName.getD ""
  else if strTruthy email then ((email.getD "").splitOn "@").headD ""
  else "Someone"

/-- `storage.getUser` restricted to the fields the routes use. -/
def getUser (users : List UserRec) (id : String) : Option UserRec :=
  users.find? (fun u => u.id == id)

/-- The routes' pattern
`getUserDisplayName(user || { firstName: null, lastName: null, email: null })`. -/
def displayNameOf (users : List UserRec) (userId : String) : String :=
  match getUser users userId with
  | some u => getUserDisplayName u.firstName u.lastName u.email
  | none => getUserDisplayName none none none

/-- An apartments-table row restricted to the fields the notification paths
read (`label` is a nullable column). -/
structure Apartment where
  id : String
  label : Option String
  address : String
deriving Repr, DecidableEq

/-- `storage.getApartment` restricted to existence, label and address: the
routes only use it here to test existence and build the message. -/
def getApartment (apts : List Apartment) (id : String) : Option Apartment :=
  apts.find? (fun a => a.id == id)

/-- JS `apartment.label || apartment.address`. -/
def labelOrAddress (a : Apartment) : String :=
  if strTruthy a.label then a.label.getD "" else a.address

/-- JS template-string interpolation of a nullable string
(interpolating `null` yields the text "null"). -/
def jsToString : Option String → String
  | none => "null"
  | some s => s

/-- A row of the comments table. -/
structure CommentRec where
  id : Nat
  apartmentId : String
  userId : String
  text : String
deriving Repr, DecidableEq

/-- `storage.createComment`: inserts a row and returns it. -/
def createComment (store : List CommentRec)
    (apartmentId userId text : String) : List CommentRec × CommentRec :=
  let c : CommentRec := ⟨store.length, apartmentId, userId, text⟩
  (store ++ [c], c)

/-- Server state visible to the two modelled routes. -/
structure AppState where
  reg : RegState
  notifStore : List Notification
  comments : List CommentRec
  favs : List (String × String)
  apartments : List Apartment
  users : List UserRec
deriving Repr, DecidableEq

/-- Effects of one `POST /api/apartments/:id/comments` call. -/
structure CommentRouteResult where
  state : AppState
  created : List Notification
  sent : List (Chan × WirePayload)
  comment : CommentRec
deriving Repr, DecidableEq

/-- The `POST /api/apartments/:id/comments` handler (routes.ts): create the
comment, then—if the apartment exists—fan out a `comment_created`
notification whose message embeds the comment text truncated at 50
characters. -/
def postCommentRoute (wsOpen : Chan → Bool) (fails : String → Bool)
    (st : AppState) (userId apartmentId text : String) : CommentRouteResult :=
  let p := createComment st.comments apartmentId userId text
  let comment := p.2
  let userName := displayNameOf st.users userId
  match getApartment st.apartments apartmentId with
  | some apartment =>
    let msg := userName ++ " commented on " ++ labelOrAddress apartment ++
      ": " ++ (if comment.text.length > 50 then
        comment.text.take 50 ++ "..." else comment.text)
    let fr := createAndBroadcastNotification wsOpen fails st.reg st.notifStore
      "comment_created" userId apartmentId "New Comment Added" msg true
    ⟨{ st with comments := p.1, notifStore := fr.store }, fr.created,
      fr.sent, comment⟩
  | none => ⟨{ st with comments := p.1 }, [], [], comment⟩

/-- Effects of one `POST /api/apartments/:id/favorite` call.
`invokedOrchestrator` records whether `createAndBroadcastNotification` was
called; `isFavorited` is the handler's JSON response value. -/
structure FavoriteRouteResult where
  state : AppState
  invokedOrchestrator : Bool
  created : List Notification
  sent : List (Chan × WirePayload)
  isFavorited : Bool
deriving Repr, DecidableEq

/-- The `POST /api/apartments/:id/favorite` handler (routes.ts): toggle the
favorite, then fan out a `favorite_created` notification only when
`apartment && isFavorited`. -/
def postFavoriteRoute (wsOpen : Chan → Bool) (fails : String → Bool)
    (st : AppState) (userId apartmentId : String) : FavoriteRouteResult :=
  let t := toggleFavorite st.favs apartmentId userId
  let isFavorited := t.2
  let st1 : AppState := { st with favs := t.1 }
  match getApartment st.apartments apartmentId with
  | some apartment =>
    if isFavorited then
      let userDisplayName := displayNameOf st.users userId
      let fr := createAndBroadcastNotification wsOpen fails st1.reg
        st1.notifStore "favorite_created" userId apartmentId
        "Apartment Favorited"
        (userDisplayName ++ " marked \"" ++ jsToString apartment.label ++
          "\" as a favorite") true
      ⟨{ st1 with notifStore := fr.store }, true, fr.created, fr.sent,
        isFavorited⟩
    else ⟨st1, false, [], [], isFavorited⟩
  | none => ⟨st1, false, [], [], isFavorited⟩

/-! ## Lemmas and claim theorems -/

theorem addChan_ne_nil (c : Chan) (o : Option (List Chan)) : addChan c o ≠ [] := by
  rcases o with _ | l
  · simp [addChan]
  · simp only [addChan]
    split
    · rintro rfl; simp_all
    · simp

theorem mem_addChan {x c : Chan} {o : Option (List Chan)} :
    x ∈ addChan c o ↔ x = c ∨ x ∈ o.getD [] := by
  rcases o with _ | l
  · simp [addChan]
  · simp only [addChan, Option.getD_some]
    split
    · constructor
      · intro hx; exact Or.inr hx
      · rintro (rfl | hx)
        · assumption
        · assumption
    · simp [List.mem_append, or_comm]

theorem addChan_nodup {c : Chan} {o : Option (List Chan)}
    (h : (o.getD []).Nodup) : (addChan c o).Nodup := by
  rcases o with _ | l
  · simp [addChan]
  · simp only [Option.getD_some] at h
    simp only [addChan]
    split
    · exact h
    · rename_i hc
      simp [List.nodup_append, h, hc]

theorem lookupConns_addConn (u : String) (c : Chan) (v : String) :
    ∀ m : ConnMap, lookupConns v (addConn u c m) =
      if v = u then some (addChan c (lookupConns u m)) else lookupConns v m := by
  intro m
  induction m with
  | nil =>
    by_cases hv : v = u
    · subst hv
      simp [addConn, lookupConns, addChan]
    · simp [addConn, lookupConns, addChan, hv, Ne.symm hv]
  | cons p rest ih =>
    obtain ⟨w, l⟩ := p
    by_cases hw : w = u
    · subst hw
      by_cases hv : v = w
      · subst hv
        simp [addConn, lookupConns, addChan]
      · simp [addConn, lookupConns, hv, Ne.symm hv]
    · by_cases hv : v = w
      · subst hv
        simp [addConn, lookupConns, hw, Ne.symm hw]
      · simp [addConn, lookupConns, hw, hv, Ne.symm hv, ih]

theorem lookupConns_eq_none_of_not_mem_keys {u : String} :
    ∀ {m : ConnMap}, u ∉ m.map Prod.fst → lookupConns u m = none := by
  intro m
  induction m with
  | nil => intro _; rfl
  | cons p rest ih =>
    intro h
    obtain ⟨w, l⟩ := p
    simp only [List.map_cons, List.mem_cons] at h
    push_neg at h
    simp only [lookupConns, if_neg (fun hv : w = u => h.1 hv.symm)]
    exact ih h.2

theorem mem_keys_iff_lookupConns {u : String} :
    ∀ {m : ConnMap}, u ∈ m.map Prod.fst ↔ lookupConns u m ≠ none := by
  intro m
  induction m with
  | nil => simp [lookupConns]
  | cons p rest ih =>
    obtain ⟨w, l⟩ := p
    simp only [List.map_cons, List.mem_cons, lookupConns]
    by_cases hw : w = u
    · subst hw
      simp
    · rw [if_neg hw]
      simp only [ih]
      constructor
      · rintro (h | h)
        · exact absurd h.symm hw
        · exact h
      · intro h; exact Or.inr h

theorem keys_addConn (u : String) (c : Chan) :
    ∀ m : ConnMap, (addConn u c m).map Prod.fst =
      if u ∈ m.map Prod.fst then m.map Prod.fst else m.map Prod.fst ++ [u] := by
  intro m
  induction m with
  | nil => simp [addConn]
  | cons p rest ih =>
    obtain ⟨w, l⟩ := p
    by_cases hw : w = u
    · subst hw
      simp [addConn]
    · simp only [addConn, if_neg hw, List.map_cons, ih, List.mem_cons]
      by_cases hu : u ∈ rest.map Prod.fst
      · rw [if_pos hu, if_pos (Or.inr hu)]
      · rw [if_neg hu, if_neg (by rintro (h | h); exact hw h.symm; exact hu h)]
        simp

theorem keys_addConn_nodup {u : String} {c : Chan} {m : ConnMap}
    (h : (m.map Prod.fst).Nodup) : ((addConn u c m).map Prod.fst).Nodup := by
  rw [keys_addConn]
  split
  · exact h
  · rename_i hu
    simp [List.nodup_append, h, hu]

theorem lookupConns_removeConn (u : String) (c : Chan) (v : String) :
    ∀ m : ConnMap, (m.map Prod.fst).Nodup →
      lookupConns v (removeConn u c m) =
        if v = u then
          (match lookupConns u m with
            | none => none
            | some l => if l.erase c = [] then none else some (l.erase c))
        else lookupConns v m := by
  intro m
  induction m with
  | nil =>
    intro _
    by_cases hv : v = u
    · subst hv
      simp [removeConn, lookupConns]
    · simp [removeConn, lookupConns, hv]
  | cons p rest ih =>
    intro hnd
    obtain ⟨w, l⟩ := p
    simp only [List.map_cons, List.nodup_cons] at hnd
    by_cases hw : w = u
    · subst hw
      by_cases hv : v = w
      · subst hv
        by_cases he : l.erase c = []
        · simp [removeConn, lookupConns, he,
            lookupConns_eq_none_of_not_mem_keys hnd.1]
        · simp [removeConn, lookupConns, he]
      · by_cases he : l.erase c = []
        · simp [removeConn, lookupConns, he, hv, Ne.symm hv]
        · simp [removeConn, lookupConns, he, hv, Ne.symm hv]
    · by_cases hv : v = w
      · subst hv
        simp [removeConn, hw, lookupConns, Ne.symm hw]
      · simp [removeConn, lookupConns, hw, hv, Ne.symm hv, ih hnd.2]

theorem keys_removeConn_sublist (u : String) (c : Chan) :
    ∀ m : ConnMap, List.Sublist ((removeConn u c m).map Prod.fst) (m.map Prod.fst) := by
  intro m
  induction m with
  | nil => simp [removeConn]
  | cons p rest ih =>
    obtain ⟨w, l⟩ := p
    by_cases hw : w = u
    · subst hw
      by_cases he : l.erase c = []
      · simp only [removeConn, if_pos rfl, he, List.map_cons]
        exact (List.Sublist.refl _).cons _
      · simp only [removeConn, if_pos rfl, if_neg he, List.map_cons]
        exact (List.Sublist.refl _).cons₂ _
    · simp only [removeConn, if_neg hw, List.map_cons]
      exact ih.cons₂ _

theorem connsInv_addConn {m : ConnMap} {u : String} {c : Chan}
    (h : ConnsInv m) : ConnsInv (addConn u c m) := by
  obtain ⟨h1, h2, h3⟩ := h
  refine ⟨keys_addConn_nodup h1, ?_, ?_⟩
  · intro v
    rw [lookupConns_addConn]
    split
    · intro hh
      exact addChan_ne_nil c _ (Option.some.inj hh)
    · exact h2 v
  · intro v
    unfold chansOf
    rw [lookupConns_addConn]
    split
    · exact addChan_nodup (h3 u)
    · exact h3 v

theorem connsInv_removeConn {m : ConnMap} {u : String} {c : Chan}
    (h : ConnsInv m) : ConnsInv (removeConn u c m) := by
  obtain ⟨h1, h2, h3⟩ := h
  refine ⟨List.Nodup.sublist (keys_removeConn_sublist u c m) h1, ?_, ?_⟩
  · intro v
    rw [lookupConns_removeConn _ _ _ _ h1]
    split
    · rcases hl : lookupConns u m with _ | l
      · simp
      · by_cases he : l.erase c = [] <;> simp [he]
    · exact h2 v
  · intro v
    unfold chansOf
    rw [lookupConns_removeConn _ _ _ _ h1]
    split
    · rcases hl : lookupConns u m with _ | l
      · simp
      · by_cases he : l.erase c = []
        · simp [he]
        · have : (chansOf u m).Nodup := h3 u
          rw [chansOf, hl] at this
          simp only [he, if_neg he, Option.getD_some]
          exact this.erase c
    · exact h3 v

theorem chansOf_removeConn_subset {m : ConnMap} {u : String} {c : Chan}
    (h1 : (m.map Prod.fst).Nodup) (v : String) :
    chansOf v (removeConn u c m) ⊆ chansOf v m := by
  unfold chansOf
  rw [lookupConns_removeConn _ _ _ _ h1]
  split
  · rename_i hv
    subst hv
    rcases hl : lookupConns v m with _ | l
    · simp
    · by_cases he : l.erase c = []
      · simp [he]
      · simp only [he, if_neg he, Option.getD_some]
        exact fun x hx => List.mem_of_mem_erase hx
  · exact fun x hx => hx

theorem not_mem_chansOf_removeConn_self {m : ConnMap} {u : String} {c : Chan}
    (h1 : (m.map Prod.fst).Nodup) (h3 : ∀ v, (chansOf v m).Nodup) :
    c ∉ chansOf u (removeConn u c m) := by
  unfold chansOf
  rw [lookupConns_removeConn _ _ _ _ h1, if_pos rfl]
  rcases hl : lookupConns u m with _ | l
  · simp
  · by_cases he : l.erase c = []
    · simp [he]
    · have hnd : l.Nodup := by
        have := h3 u
        rwa [chansOf, hl] at this
      simp only [he, if_neg he, Option.getD_some]
      intro hc
      exact ((hnd.mem_erase_iff).mp hc).1 rfl

theorem connsInv_foldRemove (c : Chan) :
    ∀ (hs : List (String × Chan)) (m : ConnMap), ConnsInv m →
      ConnsInv (hs.foldl
        (fun acc h => if h.2 = c then removeConn h.1 c acc else acc) m) := by
  intro hs
  induction hs with
  | nil => exact fun m hm => hm
  | cons p rest ih =>
    intro m hm
    simp only [List.foldl_cons]
    apply ih
    split
    · exact connsInv_removeConn hm
    · exact hm

theorem chansOf_foldRemove_subset (c : Chan) (v : String) :
    ∀ (hs : List (String × Chan)) (m : ConnMap), ConnsInv m →
      chansOf v (hs.foldl
        (fun acc h => if h.2 = c then removeConn h.1 c acc else acc) m) ⊆
        chansOf v m := by
  intro hs
  induction hs with
  | nil => exact fun m _ x hx => hx
  | cons p rest ih =>
    intro m hm
    simp only [List.foldl_cons]
    intro x hx
    have step : ConnsInv (if p.2 = c then removeConn p.1 c m else m) := by
      split
      · exact connsInv_removeConn hm
      · exact hm
    have hx' := ih _ step hx
    revert hx'
    split
    · exact fun hx' => chansOf_removeConn_subset hm.1 v hx'
    · exact fun hx' => hx'

theorem fold_remove_absent (c : Chan) :
    ∀ (hs : List (String × Chan)) (m : ConnMap), ConnsInv m →
      (∀ v, c ∈ chansOf v m → (v, c) ∈ hs) →
      ∀ v, c ∉ chansOf v (hs.foldl
        (fun acc h => if h.2 = c then removeConn h.1 c acc else acc) m) := by
  intro hs
  induction hs with
  | nil =>
    intro m _ hcov v hc
    exact absurd (hcov v hc) (List.not_mem_nil _)
  | cons p rest ih =>
    intro m hm hcov v
    obtain ⟨v', c'⟩ := p
    simp only [List.foldl_cons]
    have step : ConnsInv (if (v', c').2 = c then removeConn (v', c').1 c m else m) := by
      split
      · exact connsInv_removeConn hm
      · exact hm
    apply ih _ step
    intro w hw
    have hwm : c ∈ chansOf w m := by
      revert hw
      split
      · exact fun hw => chansOf_removeConn_subset hm.1 w hw
      · exact fun hw => hw
    have := hcov w hwm
    rcases List.mem_cons.mp this with heq | hrest
    · exfalso
      have hv' : w = v' := congrArg Prod.fst heq
      have hc' : c = c' := congrArg Prod.snd heq
      subst hv'
      rw [if_pos hc'.symm] at hw
      subst hc'
      exact not_mem_chansOf_removeConn_self hm.1 hm.2.2 hw
    · exact hrest

theorem regInv_addUserConnection {s : RegState} {u : String} {c : Chan}
    (h : RegInv s) : RegInv (addUserConnection u c s) := by
  refine ⟨connsInv_addConn h.1, ?_⟩
  intro v c'
  unfold addUserConnection chansOf
  simp only
  rw [lookupConns_addConn]
  split
  · rename_i hv
    subst hv
    intro hc'
    rcases mem_addChan.mp hc' with rfl | hold
    · exact List.mem_append.mpr (Or.inr (List.mem_singleton.mpr rfl))
    · exact List.mem_append.mpr (Or.inl (h.2 v c' hold))
  · intro hc'
    exact List.mem_append.mpr (Or.inl (h.2 v c' hc'))

theorem regInv_closeChannel {s : RegState} {c : Chan}
    (h : RegInv s) : RegInv (closeChannel c s) := by
  refine ⟨connsInv_foldRemove c s.handlers s.conns h.1, ?_⟩
  intro v c' hc'
  exact h.2 v c' (chansOf_foldRemove_subset c v s.handlers s.conns h.1 hc')

theorem regInv_applyOp {s : RegState} (h : RegInv s) (op : RegOp) :
    RegInv (applyOp s op) := by
  cases op with
  | register u c => exact regInv_addUserConnection h
  | close c => exact regInv_closeChannel h

theorem regInv_applyOps (ops : List RegOp) :
    ∀ s : RegState, RegInv s → RegInv (applyOps ops s) := by
  induction ops with
  | nil => exact fun s hs => hs
  | cons op rest ih =>
    intro s hs
    exact ih _ (regInv_applyOp hs op)

theorem regInv_emptyReg : RegInv emptyReg := by
  refine ⟨⟨List.nodup_nil, fun u => ?_, fun u => ?_⟩, fun u c hc => ?_⟩
  · intro hh
    exact Option.noConfusion hh
  · simp [chansOf, lookupConns]
  · simp [chansOf, lookupConns, emptyReg] at hc

theorem regInv_reachable {s : RegState} (h : Reachable s) : RegInv s := by
  obtain ⟨ops, rfl⟩ := h
  exact regInv_applyOps ops emptyReg regInv_emptyReg

/-- After the close event of channel `c` fires on a state satisfying the
registry invariant, `c` is in no user's set. -/
theorem closeChannel_absent {s : RegState} {c : Chan} (h : RegInv s)
    (v : String) : c ∉ chansOf v (closeChannel c s).conns := by
  exact fold_remove_absent c s.handlers s.conns h.1 (fun w hw => h.2 w c hw) v

/-- A channel is in a user's set only if that user registered it at some
point of the run. -/
theorem mem_register_of_mem_applyOps (v : String) (c : Chan) :
    ∀ (ops : List RegOp) (s : RegState), RegInv s →
      c ∈ chansOf v (applyOps ops s).conns →
      RegOp.register v c ∈ ops ∨ c ∈ chansOf v s.conns := by
  intro ops
  induction ops with
  | nil => exact fun s _ hc => Or.inr hc
  | cons op rest ih =>
    intro s hs hc
    rcases ih (applyOp s op) (regInv_applyOp hs op) hc with hin | hstate
    · exact Or.inl (List.mem_cons_of_mem _ hin)
    · cases op with
      | register u c0 =>
        unfold applyOp addUserConnection chansOf at hstate
        simp only at hstate
        rw [lookupConns_addConn] at hstate
        by_cases hv : v = u
        · subst hv
          rw [if_pos rfl] at hstate
          rcases mem_addChan.mp hstate with rfl | hold
          · exact Or.inl (List.mem_cons_self _ _)
          · exact Or.inr hold
        · rw [if_neg hv] at hstate
          exact Or.inr hstate
      | close c0 =>
        exact Or.inr
          (chansOf_foldRemove_subset c0 v s.handlers s.conns hs.1 hstate)

section FanoutLemmas

variable (wsOpen : Chan → Bool) (reg : RegState)

variable (actorId apartmentId type title message : String)

variable (fails : String → Bool)

theorem mem_sendNotificationToUser {u : String} {p : WirePayload}
    {x : Chan × WirePayload}
    (hx : x ∈ (sendNotificationToUser wsOpen reg u p).2) :
    ∃ l, lookupConns u reg.conns = some l ∧ x.1 ∈ l ∧ wsOpen x.1 = true ∧
      x.2 = p := by
  rcases hl : lookupConns u reg.conns with _ | conns
  · simp [sendNotificationToUser, hl] at hx
  · simp only [sendNotificationToUser, hl] at hx
    by_cases hlen : conns.length = 0
    · simp [hlen] at hx
    · rw [if_neg hlen] at hx
      simp only [List.mem_map, List.mem_filter] at hx
      obtain ⟨ws, ⟨hws, hop⟩, rfl⟩ := hx
      exact ⟨conns, rfl, hws, hop, rfl⟩

theorem sendNotificationToUser_mem_of {u : String} {p : WirePayload}
    {l : List Chan} {ch : Chan} (hl : lookupConns u reg.conns = some l)
    (hch : ch ∈ l) (hop : wsOpen ch = true) :
    (ch, p) ∈ (sendNotificationToUser wsOpen reg u p).2 := by
  have hne : l.length ≠ 0 := by
    intro h0
    rw [List.length_eq_zero] at h0
    subst h0
    exact List.not_mem_nil ch hch
  simp only [sendNotificationToUser, hl, if_neg hne, List.mem_map,
    List.mem_filter]
  exact ⟨ch, ⟨hch, hop⟩, rfl⟩

theorem fanout_created_userIds :
    ∀ (ts : List String) (acc : FanoutResult),
      ((ts.foldl (processRecipient wsOpen reg actorId apartmentId type title
        message fails) acc).created).map (fun n => n.userId) =
      acc.created.map (fun n => n.userId) ++
        ts.filter (fun u => !(fails u)) := by
  intro ts
  induction ts with
  | nil => simp
  | cons u rest ih =>
    intro acc
    simp only [List.foldl_cons, List.filter_cons]
    by_cases hf : fails u
    · simp only [hf, Bool.not_true, if_neg (Bool.false_ne_true)]
      rw [ih]
      simp [processRecipient, hf]
    · simp only [hf, Bool.not_false, if_pos rfl]
      rw [ih]
      simp [processRecipient, hf, createNotification]

theorem fanout_created_shape :
    ∀ (ts : List String) (acc : FanoutResult) (n : Notification),
      n ∈ (ts.foldl (processRecipient wsOpen reg actorId apartmentId type
        title message fails) acc).created →
      n ∈ acc.created ∨
        (n.userId ∈ ts ∧ fails n.userId = false ∧ n.actorId = actorId ∧
          n.apartmentId = apartmentId ∧ n.type = type ∧ n.title = title ∧
          n.message = message ∧ n.isRead = false) := by
  intro ts
  induction ts with
  | nil => exact fun acc n hn => Or.inl hn
  | cons u rest ih =>
    intro acc n hn
    simp only [List.foldl_cons] at hn
    rcases ih _ n hn with hacc | hshape
    · by_cases hf : fails u
      · simp only [processRecipient, if_pos hf] at hacc
        exact Or.inl hacc
      · simp only [processRecipient, if_neg hf, createNotification,
          List.mem_append, List.mem_singleton] at hacc
        rcases hacc with hacc | rfl
        · exact Or.inl hacc
        · refine Or.inr ⟨List.mem_cons_self _ _, ?_, rfl, rfl, rfl, rfl, rfl, rfl⟩
          simpa using hf
    · exact Or.inr ⟨List.mem_cons_of_mem _ hshape.1, hshape.2⟩

theorem fanout_store_eq :
    ∀ (ts : List String) (acc : FanoutResult) (base : List Notification),
      acc.store = base ++ acc.created →
      (ts.foldl (processRecipient wsOpen reg actorId apartmentId type title
        message fails) acc).store =
      base ++ (ts.foldl (processRecipient wsOpen reg actorId apartmentId type
        title message fails) acc).created := by
  intro ts
  induction ts with
  | nil => exact fun acc base h => h
  | cons u rest ih =>
    intro acc base h
    simp only [List.foldl_cons]
    apply ih
    by_cases hf : fails u
    · simp only [processRecipient, if_pos hf]
      exact h
    · simp only [processRecipient, if_neg hf, createNotification]
      rw [h, List.append_assoc]

theorem fanout_sent_mono :
    ∀ (ts : List String) (acc : FanoutResult) (x : Chan × WirePayload),
      x ∈ acc.sent →
      x ∈ (ts.foldl (processRecipient wsOpen reg actorId apartmentId type
        title message fails) acc).sent := by
  intro ts
  induction ts with
  | nil => exact fun acc x hx => hx
  | cons u rest ih =>
    intro acc x hx
    simp only [List.foldl_cons]
    apply ih
    by_cases hf : fails u
    · simp only [processRecipient, if_pos hf]
      exact hx
    · simp only [processRecipient, if_neg hf]
      exact List.mem_append.mpr (Or.inl hx)

theorem fanout_sent_src :
    ∀ (ts : List String) (acc : FanoutResult) (x : Chan × WirePayload),
      x ∈ (ts.foldl (processRecipient wsOpen reg actorId apartmentId type
        title message fails) acc).sent →
      x ∈ acc.sent ∨ ∃ u, u ∈ ts ∧ fails u = false ∧
        ∃ l, lookupConns u reg.conns = some l ∧ x.1 ∈ l ∧
          wsOpen x.1 = true := by
  intro ts
  induction ts with
  | nil => exact fun acc x hx => Or.inl hx
  | cons u rest ih =>
    intro acc x hx
    simp only [List.foldl_cons] at hx
    rcases ih _ x hx with hacc | ⟨v, hv, hfv, l, hl, hch, hop⟩
    · by_cases hf : fails u
      · simp only [processRecipient, if_pos hf] at hacc
        exact Or.inl hacc
      · simp only [processRecipient, if_neg hf, List.mem_append] at hacc
        rcases hacc with hacc | hsend
        · exact Or.inl hacc
        · obtain ⟨l, hl, hch, hop, _⟩ := mem_sendNotificationToUser wsOpen reg hsend
          exact Or.inr ⟨u, List.mem_cons_self _ _, by simpa using hf, l, hl, hch, hop⟩
    · exact Or.inr ⟨v, List.mem_cons_of_mem _ hv, hfv, l, hl, hch, hop⟩

theorem fanout_sent_exists :
    ∀ (ts : List String) (acc : FanoutResult) (u : String) (l : List Chan)
      (ch : Chan), u ∈ ts → fails u = false →
      lookupConns u reg.conns = some l → ch ∈ l → wsOpen ch = true →
      ∃ p, (ch, p) ∈ (ts.foldl (processRecipient wsOpen reg actorId
        apartmentId type title message fails) acc).sent := by
  intro ts
  induction ts with
  | nil => exact fun acc u l ch hu => absurd hu (List.not_mem_nil u)
  | cons v rest ih =>
    intro acc u l ch hu hf hl hch hop
    simp only [List.foldl_cons]
    by_cases hv : u = v
    · subst hv
      have hstep : (ch, (⟨acc.store.length, type, title, message,
          apartmentId⟩ : WirePayload)) ∈
          (processRecipient wsOpen reg actorId apartmentId type title message
            fails acc u).sent := by
        simp only [processRecipient, if_neg (by simp [hf] : ¬ fails u = true),
          createNotification, List.mem_append]
        exact Or.inr (sendNotificationToUser_mem_of wsOpen reg hl hch hop)
      exact ⟨_, fanout_sent_mono wsOpen reg actorId apartmentId type title
        message fails rest _ _ hstep⟩
    · rcases List.mem_cons.mp hu with rfl | hurest
      · exact absurd rfl hv
      · exact ih _ u l ch hurest hf hl hch hop

theorem fanout_created_exists :
    ∀ (ts : List String) (acc : FanoutResult) (u : String),
      u ∈ ts → fails u = false →
      ∃ n, n ∈ (ts.foldl (processRecipient wsOpen reg actorId apartmentId
        type title message fails) acc).created ∧ n.userId = u := by
  intro ts acc u hu hf
  have h := fanout_created_userIds wsOpen reg actorId apartmentId type title
    message fails ts acc
  have hmem : u ∈ ((ts.foldl (processRecipient wsOpen reg actorId apartmentId
      type title message fails) acc).created).map (fun n => n.userId) := by
    rw [h]
    refine List.mem_append.mpr (Or.inr ?_)
    rw [List.mem_filter]
    exact ⟨hu, by simp [hf]⟩
  obtain ⟨n, hn, hnu⟩ := List.mem_map.mp hmem
  exact ⟨n, hn, hnu⟩

end FanoutLemmas

/-- Since `sendPushNotification` never rethrows, the pruning branch of
`sendPushToUser` is unreachable: the subscription store is returned
unchanged, whatever the provider reports. -/
theorem sendPushToUser_store_unchanged (provider : String → PushOutcome)
    (store : List PushSub) (userId : String) (payload : PushPayload) :
    (sendPushToUser provider store userId payload).1 = store := by
  unfold sendPushToUser
  have hgen : ∀ (subs : List PushSub) (acc : List PushSub × Nat),
      (subs.foldl (fun acc sub =>
        match sendPushNotification provider sub payload with
        | Except.ok success => (acc.1, if success then acc.2 + 1 else acc.2)
        | Except.error _ => (removePushSubscription acc.1 sub.endpoint, acc.2))
        acc).1 = acc.1 := by
    intro subs
    induction subs with
    | nil => exact fun acc => rfl
    | cons sub rest ih =>
      intro acc
      simp only [List.foldl_cons, sendPushNotification]
      exact ih _
  exact hgen _ _

/-! ## Claim theorems -/

/-- C8: `sendNotificationToUser(userId, payload)` for a user with no
registered channels (no map entry, or an empty set) returns normally,
performs no send, and leaves the registry untouched. -/
theorem sendNotificationToUser_no_connections (wsOpen : Chan → Bool)
    (reg : RegState) (userId : String) (data : WirePayload)
    (h : lookupConns userId reg.conns = none ∨
      lookupConns userId reg.conns = some []) :
    sendNotificationToUser wsOpen reg userId data = (reg, []) := by
  rcases h with h | h <;> simp [sendNotificationToUser, h]

/-- Witness for C8 at a concrete input: the empty registry has no entry for
"u1". -/
theorem sendNotificationToUser_no_connections_witness :
    sendNotificationToUser (fun _ => true) emptyReg "u1"
      ⟨0, "t", "ti", "m", "a"⟩ = (emptyReg, []) :=
  sendNotificationToUser_no_connections (fun _ => true) emptyReg "u1"
    ⟨0, "t", "ti", "m", "a"⟩ (Or.inl rfl)

theorem favMatch_mem_iff {favs : List (String × String)} {a u : String} :
    (a, u) ∈ favs ↔
      0 < (favs.filter (fun f => f.1 == a && f.2 == u)).length := by
  constructor
  · intro h
    apply List.length_pos.mpr
    apply List.ne_nil_of_mem (a := (a, u))
    rw [List.mem_filter]
    exact ⟨h, by simp⟩
  · intro h
    obtain ⟨x, hx⟩ := List.exists_mem_of_length_pos h
    obtain ⟨x1, x2⟩ := x
    rw [List.mem_filter] at hx
    obtain ⟨hxf, hp⟩ := hx
    simp only [Bool.and_eq_true, beq_iff_eq] at hp
    obtain ⟨h1, h2⟩ := hp
    subst h1
    subst h2
    exact hxf

theorem not_mem_filter_out_self {favs : List (String × String)}
    {a u : String} :
    (a, u) ∉ favs.filter (fun f => !(f.1 == a && f.2 == u)) := by
  intro h
  rw [List.mem_filter] at h
  simp at h

/-- C9: `storage.toggleFavorite` toggles membership of the
(apartmentId, userId) row: the returned boolean equals the post-call
membership state, it is `true` exactly when the row was absent (insert) and
`false` exactly when it was present (delete), and toggling twice restores the
original membership. -/
theorem toggleFavorite_of_pos {favs : List (String × String)} {a u : String}
    (h : 0 < (favs.filter (fun f => f.1 == a && f.2 == u)).length) :
    toggleFavorite favs a u =
      (favs.filter (fun f => !(f.1 == a && f.2 == u)), false) := by
  unfold toggleFavorite
  rw [if_pos h]

theorem toggleFavorite_of_neg {favs : List (String × String)} {a u : String}
    (h : ¬ 0 < (favs.filter (fun f => f.1 == a && f.2 == u)).length) :
    toggleFavorite favs a u = (favs ++ [(a, u)], true) := by
  unfold toggleFavorite
  rw [if_neg h]

theorem toggleFavorite_membership_spec (favs : List (String × String))
    (a u : String) :
    ((toggleFavorite favs a u).2 = true ↔
      (a, u) ∈ (toggleFavorite favs a u).1) ∧
    ((toggleFavorite favs a u).2 = true ↔ (a, u) ∉ favs) ∧
    ((a, u) ∈ (toggleFavorite (toggleFavorite favs a u).1 a u).1 ↔
      (a, u) ∈ favs) := by
  by_cases hmem : (a, u) ∈ favs
  · have hpos := favMatch_mem_iff.mp hmem
    have h1 := toggleFavorite_of_pos (a := a) (u := u) hpos
    have hnot : (a, u) ∉ (toggleFavorite favs a u).1 := by
      rw [h1]
      exact not_mem_filter_out_self
    refine ⟨?_, ?_, ?_⟩
    · rw [h1] at hnot ⊢
      exact iff_of_false (by simp) hnot
    · rw [h1]
      exact iff_of_false (by simp) (by simp [hmem])
    · have hpos2 : ¬ 0 <
          (((toggleFavorite favs a u).1).filter
            (fun f => f.1 == a && f.2 == u)).length := by
        intro hp
        exact hnot (favMatch_mem_iff.mpr hp)
      have h2 := toggleFavorite_of_neg (a := a) (u := u) hpos2
      rw [h2]
      exact iff_of_true (by simp) hmem
  · have hpos : ¬ 0 <
        (favs.filter (fun f => f.1 == a && f.2 == u)).length := by
      intro hp
      exact hmem (favMatch_mem_iff.mpr hp)
    have h1 := toggleFavorite_of_neg (a := a) (u := u) hpos
    have hmem1 : (a, u) ∈ (toggleFavorite favs a u).1 := by
      rw [h1]
      simp
    refine ⟨?_, ?_, ?_⟩
    · rw [h1]
      exact iff_of_true rfl (by simp)
    · rw [h1]
      exact iff_of_true rfl hmem
    · have hpos2 := favMatch_mem_iff.mp hmem1
      have h2 := toggleFavorite_of_pos (a := a) (u := u) hpos2
      rw [h2]
      exact iff_of_false not_mem_filter_out_self hmem

/-- C3 (code bug): a subscription whose endpoint the provider reports as
permanently gone survives a `sendPushToUser` call: the call returns zero
successes and the subscription is still returned by a subsequent lookup,
because `sendPushNotification` swallows the provider error and returns
`false` instead of rethrowing, so the pruning branch never runs. -/
theorem sendPushToUser_gone_endpoint_not_pruned :
    sendPushToUser (fun _ => PushOutcome.goneError)
      [⟨"u3", "E", "k1", "a1"⟩] "u3" ⟨"T", "M"⟩ =
      ([⟨"u3", "E", "k1", "a1"⟩], 0) ∧
    getUserPushSubscriptions
      (sendPushToUser (fun _ => PushOutcome.goneError)
        [⟨"u3", "E", "k1", "a1"⟩] "u3" ⟨"T", "M"⟩).1 "u3" =
      [⟨"u3", "E", "k1", "a1"⟩] :=
  ⟨rfl, rfl⟩

/-- C7: for every sequence of register/close operations, after channel `c`'s
close event fires, `c` is absent from every user's connection set, no user
maps to an empty set, and a user whose only channel was `c` has no entry at
all. -/
theorem registry_cleanup_after_close (ops : List RegOp) (c : Chan)
    (v : String) :
    c ∉ chansOf v (applyOps (ops ++ [RegOp.close c]) emptyReg).conns ∧
    lookupConns v (applyOps (ops ++ [RegOp.close c]) emptyReg).conns ≠
      some [] ∧
    (chansOf v (applyOps ops emptyReg).conns = [c] →
      lookupConns v (applyOps (ops ++ [RegOp.close c]) emptyReg).conns =
        none) := by
  have hsplit : applyOps (ops ++ [RegOp.close c]) emptyReg =
      closeChannel c (applyOps ops emptyReg) := by
    unfold applyOps
    rw [List.foldl_append]
    rfl
  have hinv : RegInv (applyOps ops emptyReg) :=
    regInv_applyOps ops emptyReg regInv_emptyReg
  have habs : c ∉ chansOf v (closeChannel c (applyOps ops emptyReg)).conns :=
    closeChannel_absent hinv v
  have hinv' : RegInv (closeChannel c (applyOps ops emptyReg)) :=
    regInv_closeChannel hinv
  refine ⟨by rw [hsplit]; exact habs, by rw [hsplit]; exact hinv'.1.2.1 v, ?_⟩
  intro hlast
  rw [hsplit]
  have hsub : chansOf v (closeChannel c (applyOps ops emptyReg)).conns ⊆
      chansOf v (applyOps ops emptyReg).conns :=
    chansOf_foldRemove_subset c v _ _ hinv.1
  have hempty : chansOf v (closeChannel c (applyOps ops emptyReg)).conns = [] := by
    apply List.eq_nil_iff_forall_not_mem.mpr
    intro x hx
    have := hsub hx
    rw [hlast] at this
    rcases List.mem_singleton.mp this with rfl
    exact habs hx
  rcases hl : lookupConns v (closeChannel c (applyOps ops emptyReg)).conns
      with _ | l
  · rfl
  · exfalso
    have : chansOf v (closeChannel c (applyOps ops emptyReg)).conns = l := by
      rw [chansOf, hl]
      rfl
    rw [hempty] at this
    exact hinv'.1.2.1 v (by rw [hl, ← this])

/-- Witness for C7 at a concrete run: "u1" registers channel 5 and channel 5
closes; afterwards "u1" has no registry entry. -/
theorem registry_cleanup_after_close_witness :
    lookupConns "u1"
      (applyOps ([RegOp.register "u1" 5] ++ [RegOp.close 5]) emptyReg).conns =
      none :=
  (registry_cleanup_after_close [RegOp.register "u1" 5] 5 "u1").2.2 (by decide)

/-- C6 (counterexample): a single channel that authenticates as "u1" and then
as "u2" ends up in both users' sets simultaneously — the at-most-one-user
invariant claimed by the spec fails on the code. -/
theorem channel_two_identities_counterexample :
    0 ∈ chansOf "u1"
      (applyOps [RegOp.register "u1" 0, RegOp.register "u2" 0] emptyReg).conns ∧
    0 ∈ chansOf "u2"
      (applyOps [RegOp.register "u1" 0, RegOp.register "u2" 0] emptyReg).conns ∧
    "u1" ≠ "u2" := by
  refine ⟨by decide, by decide, by decide⟩

/-- C6 (amended): provided no channel is registered under two different user
ids during the run, every reachable state has each channel in at most one
user's set. -/
theorem channel_at_most_one_user_amended (ops : List RegOp)
    (huniq : ∀ u u' c, RegOp.register u c ∈ ops →
      RegOp.register u' c ∈ ops → u = u')
    (v v' : String) (c : Chan)
    (h1 : c ∈ chansOf v (applyOps ops emptyReg).conns)
    (h2 : c ∈ chansOf v' (applyOps ops emptyReg).conns) : v = v' := by
  have hempty : ∀ w : String, chansOf w emptyReg.conns = [] := by
    intro w
    rfl
  rcases mem_register_of_mem_applyOps v c ops emptyReg regInv_emptyReg h1
      with hr1 | habs
  · rcases mem_register_of_mem_applyOps v' c ops emptyReg regInv_emptyReg h2
        with hr2 | habs
    · exact huniq v v' c hr1 hr2
    · rw [hempty v'] at habs
      exact absurd habs (List.not_mem_nil c)
  · rw [hempty v] at habs
    exact absurd habs (List.not_mem_nil c)

/-- Unfolding of `createAndBroadcastNotification` at
`excludeActorFromNotification = true`. -/
theorem createAndBroadcast_eq (wsOpen : Chan → Bool) (fails : String → Bool)
    (reg : RegState) (store : List Notification)
    (type actorId apartmentId title message : String) :
    createAndBroadcastNotification wsOpen fails reg store type actorId
      apartmentId title message true =
    (if (reg.conns.map Prod.fst).filter (fun u => u != actorId) = [] then
      ⟨store, [], []⟩
    else ((reg.conns.map Prod.fst).filter (fun u => u != actorId)).foldl
      (processRecipient wsOpen reg actorId apartmentId type title message
        fails) ⟨store, [], []⟩) := by
  unfold createAndBroadcastNotification
  simp

/-- Zeta-reduced form of `createAndBroadcastNotification`. -/
theorem createAndBroadcast_def (wsOpen : Chan → Bool) (fails : String → Bool)
    (reg : RegState) (store : List Notification)
    (type actorId apartmentId title message : String) (ex : Bool) :
    createAndBroadcastNotification wsOpen fails reg store type actorId
      apartmentId title message ex =
    (if (reg.conns.map Prod.fst).filter
        (fun userId => if ex then userId != actorId else true) = [] then
      ⟨store, [], []⟩
    else ((reg.conns.map Prod.fst).filter
        (fun userId => if ex then userId != actorId else true)).foldl
      (processRecipient wsOpen reg actorId apartmentId type title message
        fails) ⟨store, [], []⟩) := rfl

/-- Fields shared by every record a fan-out call creates. -/
theorem createAndBroadcast_created_fields (wsOpen : Chan → Bool)
    (fails : String → Bool) (reg : RegState) (store : List Notification)
    (type actorId apartmentId title message : String) (ex : Bool)
    (n : Notification)
    (hn : n ∈ (createAndBroadcastNotification wsOpen fails reg store type
      actorId apartmentId title message ex).created) :
    n.actorId = actorId ∧ n.apartmentId = apartmentId ∧ n.type = type ∧
      n.title = title ∧ n.message = message ∧ n.isRead = false := by
  rw [createAndBroadcast_def] at hn
  by_cases ht : (reg.conns.map Prod.fst).filter
      (fun userId => if ex then userId != actorId else true) = []
  · rw [if_pos ht] at hn
    exact absurd hn (List.not_mem_nil n)
  · rw [if_neg ht] at hn
    rcases fanout_created_shape wsOpen reg actorId apartmentId type title
        message fails _ _ n hn with h | h
    · exact absurd h (List.not_mem_nil n)
    · exact ⟨h.2.2.1, h.2.2.2.1, h.2.2.2.2.1, h.2.2.2.2.2.1,
        h.2.2.2.2.2.2.1, h.2.2.2.2.2.2.2⟩

/-- C1: with `excludeActorFromNotification = true` (the default), no record
created by `createAndBroadcastNotification` has its recipient equal to the
actor. -/
theorem createAndBroadcast_excludes_actor (wsOpen : Chan → Bool)
    (fails : String → Bool) (reg : RegState) (store : List Notification)
    (type actorId apartmentId title message : String) (n : Notification)
    (hn : n ∈ (createAndBroadcastNotification wsOpen fails reg store type
      actorId apartmentId title message true).created) :
    n.userId ≠ actorId := by
  rw [createAndBroadcast_eq] at hn
  split at hn
  · exact absurd hn (List.not_mem_nil n)
  · rcases fanout_created_shape wsOpen reg actorId apartmentId type title
        message fails _ _ n hn with h | h
    · exact absurd h (List.not_mem_nil n)
    · have := h.1
      rw [List.mem_filter] at this
      simpa using this.2

set_option maxRecDepth 8000 in
/-- Witness for C1 at a concrete input: actor "u1", one live user "u2". -/
theorem createAndBroadcast_excludes_actor_witness :
    (⟨0, "u2", "u1", "a1", "t", "ti", "m", false⟩ : Notification).userId ≠
      "u1" :=
  createAndBroadcast_excludes_actor (fun _ => true) (fun _ => false)
    (applyOps [RegOp.register "u2" 0] emptyReg) [] "t" "u1" "a1" "ti" "m"
    ⟨0, "u2", "u1", "a1", "t", "ti", "m", false⟩ (by decide)

/-- C2: on a reachable registry and with persistence succeeding, the
recipients that get a record are exactly the users with at least one live
channel minus the actor; every dispatched message goes to a channel of such
a user; the store gains exactly the created records; and an empty recipient
set means an immediate return with nothing written. -/
theorem createAndBroadcast_recipients_eq_live_users (wsOpen : Chan → Bool)
    (reg : RegState) (store : List Notification)
    (type actorId apartmentId title message : String)
    (hreach : Reachable reg) :
    ((createAndBroadcastNotification wsOpen (fun _ => false) reg store type
        actorId apartmentId title message true).created.map
      (fun n => n.userId) =
      (reg.conns.map Prod.fst).filter (fun u => u != actorId)) ∧
    (∀ u : String,
      u ∈ (reg.conns.map Prod.fst).filter (fun u => u != actorId) ↔
        ((∃ l, lookupConns u reg.conns = some l ∧ l ≠ []) ∧ u ≠ actorId)) ∧
    ((createAndBroadcastNotification wsOpen (fun _ => false) reg store type
        actorId apartmentId title message true).store =
      store ++ (createAndBroadcastNotification wsOpen (fun _ => false) reg
        store type actorId apartmentId title message true).created) ∧
    (∀ x : Chan × WirePayload,
      x ∈ (createAndBroadcastNotification wsOpen (fun _ => false) reg store
        type actorId apartmentId title message true).sent →
      ∃ u l, u ≠ actorId ∧ lookupConns u reg.conns = some l ∧ x.1 ∈ l) ∧
    ((reg.conns.map Prod.fst).filter (fun u => u != actorId) = [] →
      createAndBroadcastNotification wsOpen (fun _ => false) reg store type
        actorId apartmentId title message true = ⟨store, [], []⟩) := by
  have hinv := regInv_reachable hreach
  refine ⟨?_, ?_, ?_, ?_, ?_⟩
  · rw [createAndBroadcast_eq]
    by_cases ht : (reg.conns.map Prod.fst).filter (fun u => u != actorId) = []
    · rw [if_pos ht, ht]
      rfl
    · rw [if_neg ht]
      rw [fanout_created_userIds]
      simp
  · intro u
    rw [List.mem_filter]
    constructor
    · rintro ⟨hk, hne⟩
      have hlook := mem_keys_iff_lookupConns.mp hk
      rcases hl : lookupConns u reg.conns with _ | l
      · exact absurd hl hlook
      · refine ⟨⟨l, rfl, ?_⟩, by simpa using hne⟩
        intro h0
        subst h0
        exact hinv.1.2.1 u hl
    · rintro ⟨⟨l, hl, _⟩, hne⟩
      refine ⟨mem_keys_iff_lookupConns.mpr ?_, by simpa using hne⟩
      rw [hl]
      exact fun h => Option.noConfusion h
  · rw [createAndBroadcast_eq]
    by_cases ht : (reg.conns.map Prod.fst).filter (fun u => u != actorId) = []
    · rw [if_pos ht]
      simp
    · rw [if_neg ht]
      exact fanout_store_eq wsOpen reg actorId apartmentId type title message
        (fun _ => false) _ _ store (by simp)
  · intro x hx
    rw [createAndBroadcast_eq] at hx
    split at hx
    · exact absurd hx (List.not_mem_nil x)
    · rcases fanout_sent_src wsOpen reg actorId apartmentId type title message
          (fun _ => false) _ _ x hx with h | ⟨u, hu, _, l, hl, hch, _⟩
      · exact absurd h (List.not_mem_nil x)
      · rw [List.mem_filter] at hu
        exact ⟨u, l, by simpa using hu.2, hl, hch⟩
  · intro ht
    rw [createAndBroadcast_eq, if_pos ht]

set_option maxRecDepth 8000 in
/-- Witness for C2 at a concrete input: user "u2" is live, actor is "u1",
and "u2" indeed receives a record. -/
theorem createAndBroadcast_recipients_eq_live_users_witness :
    (createAndBroadcastNotification (fun _ => true) (fun _ => false)
      (applyOps [RegOp.register "u2" 0] emptyReg) [] "t" "u1" "a1" "ti" "m"
      true).created.map (fun n => n.userId) = ["u2"] := by
  rw [(createAndBroadcast_recipients_eq_live_users (fun _ => true)
    (applyOps [RegOp.register "u2" 0] emptyReg) [] "t" "u1" "a1" "ti" "m"
    ⟨[RegOp.register "u2" 0], rfl⟩).1]
  decide

/-- C4: a persistence failure for one recipient does not affect another:
if `fails R1` and recipient R2's write succeeds, R2 still gets a created
record and each of R2's open channels still receives a wire message, and the
call returns a normal `FanoutResult` (the rejection is absorbed, never
propagated). -/
theorem fanout_per_recipient_isolation (wsOpen : Chan → Bool)
    (fails : String → Bool) (reg : RegState) (store : List Notification)
    (type actorId apartmentId title message : String) (R1 R2 : String)
    (l : List Chan) (hfail1 : fails R1 = true) (hok2 : fails R2 = false)
    (hl : lookupConns R2 reg.conns = some l) (hne : R2 ≠ actorId) :
    (∃ n, n ∈ (createAndBroadcastNotification wsOpen fails reg store type
      actorId apartmentId title message true).created ∧ n.userId = R2) ∧
    (∀ ch, ch ∈ l → wsOpen ch = true →
      ∃ p, (ch, p) ∈ (createAndBroadcastNotification wsOpen fails reg store
        type actorId apartmentId title message true).sent) := by
  have hR2t : R2 ∈ (reg.conns.map Prod.fst).filter (fun u => u != actorId) := by
    rw [List.mem_filter]
    refine ⟨mem_keys_iff_lookupConns.mpr ?_, by simpa using hne⟩
    rw [hl]
    exact fun h => Option.noConfusion h
  have htne : (reg.conns.map Prod.fst).filter (fun u => u != actorId) ≠ [] := by
    intro h
    rw [h] at hR2t
    exact List.not_mem_nil _ hR2t
  constructor
  · rw [createAndBroadcast_eq, if_neg htne]
    obtain ⟨n, hn, hnu⟩ := fanout_created_exists wsOpen reg actorId
      apartmentId type title message fails _ ⟨store, [], []⟩ R2 hR2t hok2
    exact ⟨n, hn, hnu⟩
  · intro ch hch hop
    rw [createAndBroadcast_eq, if_neg htne]
    exact fanout_sent_exists wsOpen reg actorId apartmentId type title
      message fails _ ⟨store, [], []⟩ R2 l ch hR2t hok2 hl hch hop

set_option maxRecDepth 8000 in
/-- Witness for C4 at a concrete input: "r1"'s write fails, "r2" (channel 1)
still gets a record. -/
theorem fanout_per_recipient_isolation_witness :
    ∃ n, n ∈ (createAndBroadcastNotification (fun _ => true)
      (fun u => u == "r1")
      (applyOps [RegOp.register "r1" 0, RegOp.register "r2" 1] emptyReg)
      [] "t" "u1" "a1" "ti" "m" true).created ∧ n.userId = "r2" :=
  (fanout_per_recipient_isolation (fun _ => true) (fun u => u == "r1")
    (applyOps [RegOp.register "r1" 0, RegOp.register "r2" 1] emptyReg)
    [] "t" "u1" "a1" "ti" "m" "r1" "r2" [1] (by decide) (by decide)
    (by decide) (by decide)).1

set_option maxRecDepth 8000 in
/-- C5 (counterexample): for an 80-character comment, the persisted message
is the full `"<name> commented on <apartment>: <truncated text>"` string,
which is not equal to the first 50 characters of the comment followed by
"...". -/
theorem comment_truncation_counterexample :
    ((postCommentRoute (fun _ => true) (fun _ => false)
        ⟨applyOps [RegOp.register "u2" 0] emptyReg, [], [], [],
          [⟨"a1", some "Loft", "123 St"⟩],
          [⟨"u1", some "Al", some "B", none⟩]⟩
        "u1" "a1" (String.mk (List.replicate 80 'a'))).created.map
      (fun n => n.message) =
      ["Al B commented on Loft: " ++ String.mk (List.replicate 50 'a') ++
        "..."]) ∧
    "Al B commented on Loft: " ++ String.mk (List.replicate 50 'a') ++
      "..." ≠ String.mk (List.replicate 50 'a') ++ "..." := by
  refine ⟨rfl, by decide⟩

/-- C5 (amended): when the comment text exceeds 50 characters, every record
created by the comment route carries the message
`"<display name> commented on <label-or-address>: "` followed by the first
50 characters of the text and "...". -/
theorem comment_message_shape (wsOpen : Chan → Bool) (fails : String → Bool)
    (st : AppState) (userId apartmentId text : String) (apt : Apartment)
    (hapt : getApartment st.apartments apartmentId = some apt)
    (hlen : text.length > 50) (n : Notification)
    (hn : n ∈ (postCommentRoute wsOpen fails st userId apartmentId
      text).created) :
    n.message = displayNameOf st.users userId ++ " commented on " ++
      labelOrAddress apt ++ ": " ++ (text.take 50 ++ "...") := by
  unfold postCommentRoute at hn
  simp only [hapt] at hn
  have hfields := createAndBroadcast_created_fields wsOpen fails st.reg
    st.notifStore "comment_created" userId apartmentId "New Comment Added"
    _ true n hn
  rw [hfields.2.2.2.2.1]
  have htext : (createComment st.comments apartmentId userId text).2.text =
      text := rfl
  rw [htext, if_pos hlen]

set_option maxRecDepth 8000 in
/-- Witness for C5 (amended) at the concrete 80-character input. -/
theorem comment_message_shape_witness :
    (⟨0, "u2", "u1", "a1", "comment_created", "New Comment Added",
      "Al B commented on Loft: " ++ String.mk (List.replicate 50 'a') ++
        "...", false⟩ : Notification).message =
      displayNameOf [⟨"u1", some "Al", some "B", none⟩] "u1" ++
        " commented on " ++ labelOrAddress ⟨"a1", some "Loft", "123 St"⟩ ++
        ": " ++ ((String.mk (List.replicate 80 'a')).take 50 ++ "...") :=
  comment_message_shape (fun _ => true) (fun _ => false)
    ⟨applyOps [RegOp.register "u2" 0] emptyReg, [], [], [],
      [⟨"a1", some "Loft", "123 St"⟩], [⟨"u1", some "Al", some "B", none⟩]⟩
    "u1" "a1" (String.mk (List.replicate 80 'a'))
    ⟨"a1", some "Loft", "123 St"⟩ rfl (by decide)
    ⟨0, "u2", "u1", "a1", "comment_created", "New Comment Added",
      "Al B commented on Loft: " ++ String.mk (List.replicate 50 'a') ++
        "...", false⟩ (by decide)

/-- C10: the favorite route invokes the orchestrator only when
`toggleFavorite` reported a creation; on a removal (`false`) no notification
is created or dispatched and the notification store is unchanged. -/
theorem favorite_route_notifies_only_on_create (wsOpen : Chan → Bool)
    (fails : String → Bool) (st : AppState) (userId apartmentId : String)
    (h : (toggleFavorite st.favs apartmentId userId).2 = false) :
    (postFavoriteRoute wsOpen fails st userId
      apartmentId).invokedOrchestrator = false ∧
    (postFavoriteRoute wsOpen fails st userId
      apartmentId).state.notifStore = st.notifStore ∧
    (postFavoriteRoute wsOpen fails st userId apartmentId).created = [] ∧
    (postFavoriteRoute wsOpen fails st userId apartmentId).sent = [] ∧
    (postFavoriteRoute wsOpen fails st userId apartmentId).isFavorited =
      false := by
  unfold postFavoriteRoute
  rcases hapt : getApartment st.apartments apartmentId with _ | apartment
  · simp [hapt, h]
  · simp [hapt, h]

/-- Witness for C10 at a concrete input: the favorite ("a1","u1") already
exists, so the toggle removes it and no notification is produced. -/
theorem favorite_route_notifies_only_on_create_witness :
    (postFavoriteRoute (fun _ => true) (fun _ => false)
      ⟨emptyReg, [], [], [("a1", "u1")], [⟨"a1", some "Loft", "123 St"⟩],
        [⟨"u1", some "Al", some "B", none⟩]⟩ "u1"
      "a1").invokedOrchestrator = false :=
  (favorite_route_notifies_only_on_create (fun _ => true) (fun _ => false)
    ⟨emptyReg, [], [], [("a1", "u1")], [⟨"a1", some "Loft", "123 St"⟩],
      [⟨"u1", some "Al", some "B", none⟩]⟩ "u1" "a1" (by decide)).1

/-- Witness for C6 (amended) at a concrete run in which each channel is
registered under a single identity. -/
theorem channel_at_most_one_user_amended_witness : "u1" = "u1" :=
  channel_at_most_one_user_amended
    [RegOp.register "u1" 0, RegOp.register "u1" 1]
    (by
      intro u u' c h h'
      simp only [List.mem_cons, List.not_mem_nil, or_false] at h h'
      rcases h with h | h <;> rcases h' with h' | h' <;>
        · injection h with hu hc
          injection h' with hu' hc'
          rw [hu, hu'])
    "u1" "u1" 0 (by decide) (by decide)

end HouseHunt
